import Mathlib

/-!
Shallow embedding of fastaudio/core/signal.py: the AudioTensor value type
(sample data plus sampling-rate metadata), file discovery, archive
extraction, the OpenAudio transform, and the show / show_batch display
helpers.  Tensors are modelled as nested lists of rational samples;
operations that can raise in Python return Option or Except values.
External library calls (torchaudio.load, fastai get_files, get_grid and
the base show_batch implementation) are modelled as parameters or from
the specification, as noted on each definition.
-/

namespace FastAudio

/-- Tensor data: a nested array of rational samples.  A 2-channel clip is
`arr [arr samples0, arr samples1]`. -/
inductive TData where
  | scalar (v : ℚ)
  | arr (elems : List TData)

/-- Shape of a tensor, outermost dimension first (torch `.shape`).  An
empty array contributes a 0 dimension with no further inner dims. -/
def TData.shape : TData → List ℕ
  | .scalar _ => []
  | .arr [] => [0]
  | .arr (x :: xs) => (xs.length + 1) :: TData.shape x

/-- Python negative-index read `l[-k]` on a list of dimensions:
defined when `1 ≤ k ≤ len l`, else an IndexError (`none`). -/
def pyNegGet (l : List ℕ) (k : ℕ) : Option ℕ :=
  if 1 ≤ k ∧ k ≤ l.length then l.get? (l.length - k) else none

/-- Python errors that the embedded operations can raise. -/
inductive PyErr where
  | typeError
  | zeroDivisionError
  | indexError
deriving DecidableEq

/-- An index expression handed to `__getitem__`: a single (possibly
negative) integer index, or a range slice `a[start:stop]`. -/
inductive PyIndex where
  | single (i : ℤ)
  | slice (start stop : ℕ)

/-- Base tensor `__getitem__` (torch semantics on the outermost
dimension): integer indexing selects one sub-tensor and raises on an
out-of-range index; a range slice clamps and never raises.  Indexing a
0-dim tensor raises. -/
def TData.getItemBase : TData → PyIndex → Option TData
  | .scalar _, _ => none
  | .arr l, .single i =>
      let j : ℤ := if i < 0 then i + (l.length : ℤ) else i
      if h : 0 ≤ j ∧ j < (l.length : ℤ) then
        some (l.get ⟨j.toNat, by omega⟩)
      else none
  | .arr l, .slice s t => some (.arr ((l.drop s).take (t - s)))

/-- The AudioTensor value: sample data plus the sampling-rate metadata
`sr` attached at construction (`None` when not supplied). -/
structure AudioTensor where
  data : TData
  sr : Option ℕ

/-- fastcore `retain_type(res, self)`: convert a plain tensor result back
to the type of `self`, carrying over its metadata (here: `sr`). -/
def retain_type (res : TData) (self : AudioTensor) : AudioTensor :=
  { data := res, sr := self.sr }

/-- `AudioTensor.__getitem__` as installed by `_get_f`: run the base
tensor `__getitem__`, then `retain_type` the result against `self`. -/
def AudioTensor.getItem (self : AudioTensor) (idx : PyIndex) : Option AudioTensor :=
  (self.data.getItemBase idx).map (fun res => retain_type res self)

/-- `nsamples`: `self.shape[-1]` (size of the last dimension). -/
def AudioTensor.nsamples (self : AudioTensor) : Option ℕ :=
  pyNegGet self.data.shape 1

/-- `nchannels`: `self.shape[-2]`. -/
def AudioTensor.nchannels (self : AudioTensor) : Option ℕ :=
  pyNegGet self.data.shape 2

/-- `duration`: `self.nsamples / float(self.sr)`.  Evaluates `nsamples`
first (IndexError on a 0-dim tensor), then `float(self.sr)` (TypeError
when `sr` is None), then the float division (ZeroDivisionError when the
rate is 0); otherwise the exact quotient in seconds. -/
def AudioTensor.duration (self : AudioTensor) : Except PyErr ℚ :=
  match self.nsamples with
  | none => .error .indexError
  | some n =>
    match self.sr with
    | none => .error .typeError
    | some r =>
      if r = 0 then .error .zeroDivisionError
      else .ok ((n : ℚ) / (r : ℚ))

/-- Path concatenation `Path(a) / b`. -/
def pathJoin (a b : String) : String :=
  a ++ "/" ++ b

/-- Index of the last occurrence of a character in a list. -/
def lastIndexOf (c : Char) : List Char → Option ℕ
  | [] => none
  | x :: xs =>
    match lastIndexOf c xs with
    | some i => some (i + 1)
    | none => if x = c then some 0 else none

/-- `Path(s).name`: the final path component (after the last slash). -/
def pathName (s : String) : String :=
  match lastIndexOf '/' s.data with
  | none => s
  | some i => String.mk (s.data.drop (i + 1))

/-- `with_suffix("")` applied to a final path component: pathlib treats
the part from the last dot as the suffix, provided that dot is neither
the first nor the last character; `with_suffix("")` removes exactly that
one suffix, never more. -/
def withSuffixEmpty (name : List Char) : List Char :=
  match lastIndexOf '.' name with
  | none => name
  | some i => if 0 < i ∧ i + 1 < name.length then name.take i else name

/-- `tar_extract_at_filename`: the destination directory it extracts
into, namely `Path(dest) / Path(fname).with_suffix("").name`. -/
def tarExtractDest (fname dest : String) : String :=
  pathJoin dest (String.mk (withSuffixEmpty (pathName fname).data))

/-- `AudioTensor.create(fn, cache_folder)`: when a cache folder is given,
redirect to `cache_folder / fn.name`; decode the resulting path with the
external decoder `load` (torchaudio.load, modelled as a parameter that
yields the sample data and the sampling rate) and attach the reported
rate as the `sr` metadata. -/
def AudioTensor.create (load : String → TData × ℕ) (fn : String)
    (cache_folder : Option String) : AudioTensor :=
  let fn2 := match cache_folder with
    | none => fn
    | some c => pathJoin c (pathName fn)
  let d := load fn2
  { data := d.1, sr := some d.2 }

/-- Python `str.lower`, character by character. -/
def strLower (s : String) : String :=
  String.mk (s.data.map Char.toLower)

/-- Python `str.startswith`, over the underlying character lists. -/
def charsStartWith : List Char → List Char → Bool
  | _, [] => true
  | [], _ :: _ => false
  | a :: as, b :: bs => a == b && charsStartWith as bs

/-- Extension of a filename as fastai computes it: a dot followed by the
lower-cased part after the last dot (the whole lower-cased name when
there is no dot). -/
def extOf (f : String) : String :=
  match lastIndexOf '.' f.data with
  | none => String.mk ('.' :: f.data.map Char.toLower)
  | some i => String.mk ('.' :: ((f.data.drop (i + 1)).map Char.toLower))

/-- Modelled from the spec: fastai `get_files` (not part of this
repository's sources) enumerates files under a root and keeps those
whose extension is among `extensions`; with an empty extension set it
keeps every file.  The directory contents are modelled as the list
`files` of file names in enumeration order. -/
def get_files (files : List String) (extensions : List String) : List String :=
  files.filter (fun f => decide (extOf f ∈ extensions))

/-- `audio_extensions`: the lower-cased keys of the mimetypes table whose
MIME value starts with audio-slash.  The table is a parameter since it
is host-environment state. -/
def audio_extensions (typesMap : List (String × String)) : List String :=
  (typesMap.filter (fun kv => charsStartWith kv.2.data (("audio/") : String).data)).map
    (fun kv => strLower kv.1)

/-- `get_audio_files`: `get_files` restricted to `audio_extensions`. -/
def get_audio_files (typesMap : List (String × String)) (files : List String) : List String :=
  get_files files (audio_extensions typesMap)

/-- Effects of one per-sample display call: whether the playback widget
(`hear`) ran, and whether the waveform plot was drawn. -/
structure ShowEffect where
  heard : Bool
  plotted : Bool
deriving DecidableEq

/-- `AudioTensor.show(ctx, hear, ...)`: when `hear` is true, first
display the playback widget via `self.hear()`; always draw the waveform
plot via `show_audio_signal`. -/
def AudioTensor.showClip (_self : AudioTensor) (hear : Bool) : ShowEffect :=
  { heard := hear, plotted := true }

/-- The default of the `hear` keyword of `AudioTensor.show`. -/
def show_hear_default : Bool := true

/-- Modelled from the spec: fastai `get_grid(n, nrows, ncols, figsize)`
(not part of this repository's sources) creates a grid holding exactly
`n` sub-plot contexts; `nrows`/`ncols` only affect the layout. -/
def get_grid (n _nrows _ncols : ℕ) : List ℕ :=
  List.range n

/-- Modelled from the spec: the host framework's base `show_batch[object]`
(not part of this repository's sources) shows one sample per available
context, at most `max_n` of them, forwarding the passed keyword
arguments — here the `hear` flag — to each per-sample show call. -/
def show_batch_object (xs : List AudioTensor) (ctxs : List ℕ) (max_n : ℕ)
    (hear : Bool) : List ShowEffect :=
  ((xs.zip ctxs).take max_n).map (fun p => p.1.showClip hear)

/-- The contexts the AudioTensor `show_batch` overload works with: the
caller-supplied ones when present, else a fresh grid of
`min(len(samples), max_n)` sub-plot contexts from `get_grid`. -/
def show_batch_ctxs (samples_len : ℕ) (ctxs : Option (List ℕ))
    (max_n nrows ncols : ℕ) : List ℕ :=
  match ctxs with
  | some cs => cs
  | none => get_grid (min samples_len max_n) nrows ncols

/-- Default `max_n` of the AudioTensor `show_batch` overload. -/
def show_batch_max_n_default : ℕ := 6

/-- Default `nrows` of the AudioTensor `show_batch` overload. -/
def show_batch_nrows_default : ℕ := 2

/-- Default `ncols` of the AudioTensor `show_batch` overload. -/
def show_batch_ncols_default : ℕ := 1

/-- The AudioTensor `show_batch` overload: build the contexts, then
delegate to the base implementation with `hear=False`.  The batch is
modelled as the list of per-sample AudioTensors. -/
def show_batch (xs : List AudioTensor) (ctxs : Option (List ℕ))
    (max_n nrows ncols : ℕ) : List ShowEffect :=
  show_batch_object xs (show_batch_ctxs xs.length ctxs max_n nrows ncols) max_n false

/-- The OpenAudio transform over a list of file paths. -/
structure OpenAudio where
  items : List String

/-- `OpenAudio.encodes(i)`: decode `items[i]` into an AudioTensor
(IndexError, i.e. `none`, past the end). -/
def OpenAudio.encodes (t : OpenAudio) (load : String → TData × ℕ) (i : ℕ) :
    Option AudioTensor :=
  (t.items.get? i).map (fun o => AudioTensor.create load o none)

/-- `OpenAudio.decodes(i)`: return the source path `items[i]`. -/
def OpenAudio.decodes (t : OpenAudio) (i : ℕ) : Option String :=
  t.items.get? i

/-- True exactly when the computation raised. -/
def isError (x : Except PyErr ℚ) : Bool :=
  match x with
  | .error _ => true
  | .ok _ => false

/-- A 1000-sample channel filled with a constant value. -/
def sampleChannel (v : ℚ) : TData :=
  .arr (List.replicate 1000 (.scalar v))

/-- A concrete 2-channel, 1000-sample AudioTensor at 16 kHz. -/
def sampleAudio : AudioTensor :=
  { data := .arr [sampleChannel 0, sampleChannel 1], sr := some 16000 }

/-- The first channel of `sampleAudio`, still at 16 kHz. -/
def sampleSliced : AudioTensor :=
  { data := .arr [sampleChannel 0], sr := some 16000 }

/-- A 1-dim, 1-sample AudioTensor whose attached rate is 0. -/
def zeroSrAudio : AudioTensor :=
  { data := .arr [.scalar 0], sr := some 0 }

/-- A 1-channel, 2-sample AudioTensor at rate 2. -/
def goodAudio : AudioTensor :=
  { data := .arr [.arr [.scalar 0, .scalar 1]], sr := some 2 }

/-- A 1-dim AudioTensor constructed without a sampling rate. -/
def noSrAudio : AudioTensor :=
  { data := .arr [.scalar 0], sr := none }

/-- A concrete mimetypes table with one audio and one non-audio entry. -/
def tm0 : List (String × String) :=
  [((".wav"), ("audio/x-wav")), ((".txt"), ("text/plain"))]

/-- A concrete directory listing: two audio files, one text file. -/
def files0 : List String :=
  [("a.wav"), ("b.txt"), ("c.WAV")]

/-- The same directory listed in a different creation order. -/
def files1 : List String :=
  [("b.txt"), ("a.wav"), ("c.WAV")]

/-- A concrete OpenAudio transform over two paths. -/
def oa0 : OpenAudio :=
  { items := [("a.wav"), ("b.wav")] }

/-- A concrete decoder: every file decodes to one zero sample at 44.1 kHz. -/
def load0 : String → TData × ℕ :=
  fun _ => (.arr [.scalar 0], 44100)

/-- A minimal concrete AudioTensor for the display witnesses. -/
def at0 : AudioTensor :=
  { data := .arr [.scalar 0], sr := some 1 }

/-- C1: every successful `__getitem__` on an AudioTensor yields again an
AudioTensor (by the result type of `getItem`) whose `sr` metadata equals
that of the original value, for every integer index or slice. -/
theorem getitem_retains_sr (a : AudioTensor) (idx : PyIndex) (r : AudioTensor)
    (h : a.getItem idx = some r) : r.sr = a.sr := by
  rcases Option.map_eq_some'.mp h with ⟨d, _, hf⟩
  rw [← hf]
  rfl

/-- C1 witness: slicing the concrete 2-channel, 1000-sample tensor with
the range slice `[0:1]` returns an AudioTensor with the same `sr`. -/
theorem getitem_retains_sr_witness :
    sampleAudio.getItem (PyIndex.slice 0 1) = some sampleSliced ∧
    sampleSliced.sr = sampleAudio.sr :=
  ⟨rfl, getitem_retains_sr sampleAudio (PyIndex.slice 0 1) sampleSliced rfl⟩

/-- C2 counterexample: an AudioTensor with the present rate `some 0` has
a defined sample count, yet `duration` raises ZeroDivisionError instead
of returning the quotient, so the claim fails for this present rate. -/
theorem duration_zero_sr_counterexample :
    zeroSrAudio.sr = some 0 ∧ zeroSrAudio.nsamples = some 1 ∧
    zeroSrAudio.duration = Except.error PyErr.zeroDivisionError ∧
    zeroSrAudio.duration ≠ Except.ok ((1 : ℚ) / (0 : ℚ)) :=
  ⟨rfl, rfl, rfl, fun h => Except.noConfusion h⟩

/-- C2 amended: for every AudioTensor with a present nonzero sampling
rate and a defined sample count, `duration` returns exactly the sample
count divided by the rate. -/
theorem duration_eq_nsamples_div_sr (a : AudioTensor) (r n : ℕ)
    (hsr : a.sr = some r) (hr : r ≠ 0) (hn : a.nsamples = some n) :
    a.duration = Except.ok ((n : ℚ) / (r : ℚ)) := by
  unfold AudioTensor.duration
  rw [hn, hsr]
  simp [hr]

/-- C2 witness: the concrete 2-sample tensor at rate 2 has duration 2/2
seconds. -/
theorem duration_eq_nsamples_div_sr_witness :
    goodAudio.sr = some 2 ∧ goodAudio.nsamples = some 2 ∧
    goodAudio.duration = Except.ok ((2 : ℚ) / (2 : ℚ)) :=
  ⟨rfl, rfl, duration_eq_nsamples_div_sr goodAudio 2 2 rfl (by decide) rfl⟩

/-- C3 counterexample: extracting `foo.tar.gz` into `dest` targets the
directory `dest/foo.tar`, not `dest/foo`: `with_suffix("")` strips only
the final `.gz` suffix. -/
theorem tar_extract_counterexample :
    tarExtractDest ("foo.tar.gz") ("dest") ≠ pathJoin ("dest") ("foo") ∧
    tarExtractDest ("foo.tar.gz") ("dest") = pathJoin ("dest") ("foo.tar") := by
  constructor
  · decide
  · decide

/-- C3 amended: for every destination, extracting `foo.tar.gz` into it
targets the sub-directory named `foo.tar` (the archive base name with
only its last suffix removed). -/
theorem tar_extract_dest_dir (dest : String) :
    tarExtractDest ("foo.tar.gz") dest = pathJoin dest ("foo.tar") := by
  have h : String.mk (withSuffixEmpty (pathName ("foo.tar.gz")).data) = ("foo.tar") := by
    decide
  unfold tarExtractDest
  rw [h]

/-- C4: over any mimetypes table and any directory listing,
`get_audio_files` returns exactly the files whose extension is an audio
extension — membership is characterised, the count equals the number of
audio-extension files, and the result is permutation-stable under
re-ordering the listing (creation order is irrelevant). -/
theorem get_audio_files_exact (tm : List (String × String)) (files : List String) :
    (∀ f, f ∈ get_audio_files tm files ↔ f ∈ files ∧ extOf f ∈ audio_extensions tm) ∧
    (get_audio_files tm files).length =
      files.countP (fun f => decide (extOf f ∈ audio_extensions tm)) ∧
    (∀ files2, files.Perm files2 →
      (get_audio_files tm files).Perm (get_audio_files tm files2)) := by
  refine ⟨?_, ?_, ?_⟩
  · intro f
    simp [get_audio_files, get_files, List.mem_filter]
  · unfold get_audio_files get_files
    exact (List.countP_eq_length_filter _ _).symm
  · intro files2 hp
    exact hp.filter _

/-- C4 witness: on the concrete table and listing, the two audio files
(one with an upper-case extension) are returned, the text file is not,
and a re-ordered listing gives a permutation of the same result. -/
theorem get_audio_files_exact_witness :
    (get_audio_files tm0 files0).Perm (get_audio_files tm0 files1) ∧
    get_audio_files tm0 files0 = [("a.wav"), ("c.WAV")] :=
  ⟨(get_audio_files_exact tm0 files0).2.2 files1
    (List.Perm.swap ("b.txt") ("a.wav") [("c.WAV")]), rfl⟩

/-- C5: the AudioTensor `show_batch` overload creates exactly
`min(len(samples), max_n)` sub-plot contexts when none are supplied —
hence never more than `max_n` — renders exactly that many samples, and
its defaults are `max_n = 6`, `nrows = 2`. -/
theorem show_batch_bounded (n max_n nrows ncols : ℕ) (xs : List AudioTensor) :
    (show_batch_ctxs n none max_n nrows ncols).length = min n max_n ∧
    (show_batch_ctxs n none max_n nrows ncols).length ≤ max_n ∧
    (show_batch xs none max_n nrows ncols).length = min xs.length max_n ∧
    show_batch_max_n_default = 6 ∧ show_batch_nrows_default = 2 := by
  refine ⟨?_, ?_, ?_, rfl, rfl⟩
  · simp [show_batch_ctxs, get_grid]
  · simp [show_batch_ctxs, get_grid]
  · simp [show_batch, show_batch_object, show_batch_ctxs, get_grid,
      List.length_take, List.length_zip]

/-- C6: constructing an AudioTensor from a file (no cache redirection)
attaches exactly the sampling rate reported by the decoder for that
file as the `sr` metadata. -/
theorem create_sr (load : String → TData × ℕ) (fn : String) :
    (AudioTensor.create load fn none).sr = some (load fn).2 :=
  rfl

/-- C7: with a cache folder present, `create` decodes the file at
`cache_folder / fn.name` — the construction coincides with decoding that
cached path directly, and the original path is never decoded. -/
theorem create_cache (load : String → TData × ℕ) (fn c : String) :
    AudioTensor.create load fn (some c) =
      AudioTensor.create load (pathJoin c (pathName fn)) none :=
  rfl

/-- C8: when the sampling rate is absent, `duration` always raises
(IndexError or TypeError, never a silently defaulted quotient). -/
theorem duration_none_sr (a : AudioTensor) (h : a.sr = none) :
    isError a.duration = true := by
  unfold AudioTensor.duration
  cases hn : a.nsamples
  · rfl
  · rw [h]
    rfl

/-- C8 witness: the concrete rate-less tensor's `duration` raises. -/
theorem duration_none_sr_witness : isError noSrAudio.duration = true :=
  duration_none_sr noSrAudio rfl

/-- C9: for every valid index, `decodes` returns exactly `items[i]`,
and `encodes` builds its AudioTensor from that very path. -/
theorem open_audio_roundtrip (t : OpenAudio) (load : String → TData × ℕ)
    (i : ℕ) (h : i < t.items.length) :
    t.decodes i = some (t.items.get ⟨i, h⟩) ∧
    t.encodes load i = some (AudioTensor.create load (t.items.get ⟨i, h⟩) none) := by
  constructor
  · simp [OpenAudio.decodes, List.get?_eq_get h]
  · unfold OpenAudio.encodes
    rw [List.get?_eq_get h]
    rfl

/-- C9 witness: at index 0 of the concrete transform, `decodes` yields
the first path and `encodes` decodes that same path. -/
theorem open_audio_roundtrip_witness :
    oa0.decodes 0 = some ("a.wav") ∧
    oa0.encodes load0 0 = some (AudioTensor.create load0 ("a.wav") none) :=
  open_audio_roundtrip oa0 load0 0 (by decide)

/-- C10: every per-sample effect produced through the AudioTensor
`show_batch` overload has playback suppressed (`heard = false`), while a
direct `show` call under its default `hear=True` does trigger playback. -/
theorem show_batch_no_playback (xs : List AudioTensor) (ctxs : Option (List ℕ))
    (max_n nrows ncols : ℕ) (e : ShowEffect)
    (he : e ∈ show_batch xs ctxs max_n nrows ncols) (a : AudioTensor) :
    e.heard = false ∧ (a.showClip show_hear_default).heard = true := by
  refine ⟨?_, rfl⟩
  have he2 : e ∈ ((xs.zip (show_batch_ctxs xs.length ctxs max_n nrows ncols)).take
      max_n).map (fun p => p.1.showClip false) := he
  obtain ⟨p, _, hp⟩ := List.mem_map.mp he2
  rw [← hp]
  rfl

/-- C10 witness: the single effect rendered for a one-sample batch has
playback suppressed, while the direct default show on that sample hears. -/
theorem show_batch_no_playback_witness :
    ShowEffect.heard { heard := false, plotted := true } = false ∧
    (at0.showClip show_hear_default).heard = true :=
  show_batch_no_playback [at0] none 6 2 1 { heard := false, plotted := true }
    (by decide) at0

end FastAudio
